import Mathlib

/-!
Shallow embedding of the hierarchical analytics aggregation engine of the
`dashboard_crurales` repository, together with theorems settling the claims
about it.

The embedding follows `src/services/hierarchyService.ts`,
`src/services/workerAnalyticsService.ts` and the type declarations in
`src/types` (`index.ts` / `database.ts` / `errors.ts`).

Modelling conventions:
* JavaScript numbers that can be non-integral (verification rate,
  completeness percentage, composite scores, averages) are modelled as
  rationals (`ℚ`); counts are `Nat`.
* Timestamps (`created_at`, `Date.now()`) are modelled as `Int`
  (milliseconds since the epoch); the implicit clock reading `Date.now()`
  becomes an explicit `now : Int` parameter.
* Optional TS fields become `Option`; JS string truthiness (`s && ...`)
  becomes an emptiness test, matching the only values those fields hold.
* `Array.prototype.sort` with a numeric comparator is, per the ECMAScript
  specification, a stable sort; it is modelled by a stable insertion sort.
-/

/-- Worker roles in the hierarchy (`WorkerRole` in `src/types`). -/
inductive Role where
  | lider
  | brigadista
  | movilizador
deriving DecidableEq, Repr

/-- Trend classification (`'up' | 'down' | 'stable'`). -/
inductive Trend where
  | up
  | down
  | stable
deriving DecidableEq, Repr

/-- `LocationInfo` from `src/types/index.ts`: all five fields optional. -/
structure LocationInfo where
  entidad : Option String
  municipio : Option String
  seccion : Option String
  colonia : Option String
  codigo_postal : Option String
deriving DecidableEq, Repr

/-- `PerformanceMetrics` from `src/types/index.ts`. -/
structure PerformanceMetrics where
  ciudadanosRegistrados : Nat
  tasaVerificacion : ℚ
  completitudDatos : ℚ
  ranking : Nat
  tendencia : Trend
  ultimaActividad : Int
deriving DecidableEq, Repr

/-- `HierarchicalWorker` from `src/types/index.ts`.  The optional
`children` field is modelled as a plain list: the builder always supplies
it, and every operation in scope guards `children` with
`children && children.length > 0` (or `children?.forEach`), under which a
missing array and an empty array behave identically. -/
inductive HierarchicalWorker where
  | mk
      (id : String)
      (nombre : String)
      (role : Role)
      (ciudadanosRegistrados : Nat)
      (ubicacion : LocationInfo)
      (children : List HierarchicalWorker)
      (performance : PerformanceMetrics)
      (parentId : Option String)
      (isActive : Bool)
      (lastActivity : Int)

def HierarchicalWorker.id : HierarchicalWorker → String
  | .mk i _ _ _ _ _ _ _ _ _ => i

def HierarchicalWorker.nombre : HierarchicalWorker → String
  | .mk _ n _ _ _ _ _ _ _ _ => n

def HierarchicalWorker.role : HierarchicalWorker → Role
  | .mk _ _ r _ _ _ _ _ _ _ => r

def HierarchicalWorker.ciudadanosRegistrados : HierarchicalWorker → Nat
  | .mk _ _ _ c _ _ _ _ _ _ => c

def HierarchicalWorker.ubicacion : HierarchicalWorker → LocationInfo
  | .mk _ _ _ _ u _ _ _ _ _ => u

def HierarchicalWorker.children : HierarchicalWorker → List HierarchicalWorker
  | .mk _ _ _ _ _ ch _ _ _ _ => ch

def HierarchicalWorker.performance : HierarchicalWorker → PerformanceMetrics
  | .mk _ _ _ _ _ _ p _ _ _ => p

def HierarchicalWorker.parentId : HierarchicalWorker → Option String
  | .mk _ _ _ _ _ _ _ pid _ _ => pid

def HierarchicalWorker.isActive : HierarchicalWorker → Bool
  | .mk _ _ _ _ _ _ _ _ a _ => a

def HierarchicalWorker.lastActivity : HierarchicalWorker → Int
  | .mk _ _ _ _ _ _ _ _ _ la => la

/-- The fields shared by the three worker tables
(`BaseWorker` in `src/types/index.ts`, matching `LideresRow` /
`BrigadistasRow` / `MovilizadoresRow` in `src/types/database.ts`):
`id`, `nombre` and `num_verificado` are required, the rest optional. -/
structure WorkerRow where
  id : String
  nombre : String
  clave_electoral : Option String
  curp : Option String
  direccion : Option String
  colonia : Option String
  codigo_postal : Option String
  seccion : Option String
  entidad : Option String
  municipio : Option String
  numero_cel : Option String
  num_verificado : Bool
  created_at : Int
deriving DecidableEq, Repr

/-- A leaf registrant row; only its presence in a list is ever used
(the services only take `.length` of `ciudadanos` arrays). -/
structure CiudadanoRow where
  id : String
deriving DecidableEq, Repr

/-- `MovilizadorWithHierarchy`: a movilizador row with its optional
nested `ciudadanos` rows. -/
structure MovilizadorRow extends WorkerRow where
  ciudadanos : Option (List CiudadanoRow)
deriving DecidableEq, Repr

/-- `BrigadistaWithHierarchy`: a brigadista row with its optional
nested `movilizadores`. -/
structure BrigadistaRow extends WorkerRow where
  movilizadores : Option (List MovilizadorRow)
deriving DecidableEq, Repr

/-- `LiderWithHierarchy`: a lider row with its optional nested
`brigadistas`. -/
structure LiderRow extends WorkerRow where
  brigadistas : Option (List BrigadistaRow)
deriving DecidableEq, Repr

namespace HierarchyService

/-- `CACHE_TTL = 5 * 60 * 1000` (milliseconds). -/
def CACHE_TTL : Int := 5 * 60 * 1000

/-- `Math.floor((now - created_at) / (1000*60*60*24))`; `Int.fdiv` is
floor division, matching `Math.floor` on the real quotient. -/
def daysSinceCreation (now created_at : Int) : Int :=
  Int.fdiv (now - created_at) (1000 * 60 * 60 * 24)

/-- `isWorkerActive`: created within the last 90 days. -/
def isWorkerActive (now created_at : Int) : Bool :=
  daysSinceCreation now created_at ≤ 90

/-- `calculateTrend`: elapsed-time heuristic. -/
def calculateTrend (now : Int) (w : WorkerRow) : Trend :=
  let d := daysSinceCreation now w.created_at
  if d < 7 then .up
  else if d > 30 then .down
  else .stable

/-- JS `s.toLowerCase()`, modelled character-wise. -/
def jsToLower (s : String) : String :=
  String.mk (s.data.map Char.toLower)

/-- JS `s.trim()`: strip leading and trailing whitespace. -/
def jsTrim (s : String) : String :=
  String.mk
    (((s.data.dropWhile Char.isWhitespace).reverse.dropWhile Char.isWhitespace).reverse)

/-- JS truthiness-plus-trim test `worker[field] && worker[field].trim() !== ''`
applied to an optional string field: an absent field is falsy, an empty
string is falsy, and otherwise the trimmed value must be non-empty. -/
def jsFieldPopulated : Option String → Bool
  | none => false
  | some s => !(s == "") && !(jsTrim s == "")

/-- The fixed field list of `calculateDataCompleteness`, read off a row.
`nombre` is a required string and participates through the same
truthiness test. -/
def completenessFields (w : WorkerRow) : List (Option String) :=
  [some w.nombre, w.clave_electoral, w.curp, w.direccion, w.colonia,
   w.codigo_postal, w.seccion, w.entidad, w.municipio, w.numero_cel]

/-- `calculateDataCompleteness`: `(completedFields / fields.length) * 100`
with `fields.length = 10`. -/
def calculateDataCompleteness (w : WorkerRow) : ℚ :=
  (((completenessFields w).countP jsFieldPopulated : ℚ) / 10) * 100

/-- `worker.num_verificado ? 100 : 0`. -/
def calculateVerificationRate (w : WorkerRow) : ℚ :=
  if w.num_verificado then 100 else 0

/-- `extractLocationInfo`. -/
def extractLocationInfo (w : WorkerRow) : LocationInfo :=
  { entidad := w.entidad
    municipio := w.municipio
    seccion := w.seccion
    colonia := w.colonia
    codigo_postal := w.codigo_postal }

/-- `calculatePerformanceMetrics`: note `ranking: 0` ("Will be calculated
separately"). -/
def calculatePerformanceMetrics (now : Int) (w : WorkerRow) (ciudadanosCount : Nat) :
    PerformanceMetrics :=
  { ciudadanosRegistrados := ciudadanosCount
    tasaVerificacion := calculateVerificationRate w
    completitudDatos := calculateDataCompleteness w
    ranking := 0
    tendencia := calculateTrend now w
    ultimaActividad := w.created_at }

/-- `movilizador.ciudadanos?.length || 0`. -/
def movilizadorCiudadanosCount (m : MovilizadorRow) : Nat :=
  (m.ciudadanos.getD []).length

/-- `transformMovilizadorToHierarchicalWorker`. -/
def transformMovilizadorToHierarchicalWorker (now : Int) (m : MovilizadorRow)
    (parentId : String) : HierarchicalWorker :=
  let totalCiudadanos := movilizadorCiudadanosCount m
  .mk m.id m.nombre .movilizador totalCiudadanos
    (extractLocationInfo m.toWorkerRow) []
    (calculatePerformanceMetrics now m.toWorkerRow totalCiudadanos)
    (some parentId) (isWorkerActive now m.created_at) m.created_at

/-- `brigadista.movilizadores?.reduce((sum, mov) => sum + (mov.ciudadanos?.length || 0), 0) || 0`. -/
def brigadistaTotalCiudadanos (b : BrigadistaRow) : Nat :=
  ((b.movilizadores.getD []).map movilizadorCiudadanosCount).sum

/-- `transformBrigadistaToHierarchicalWorker`. -/
def transformBrigadistaToHierarchicalWorker (now : Int) (b : BrigadistaRow)
    (parentId : String) : HierarchicalWorker :=
  let movilizadores := (b.movilizadores.getD []).map
    (fun m => transformMovilizadorToHierarchicalWorker now m b.id)
  let totalCiudadanos := brigadistaTotalCiudadanos b
  .mk b.id b.nombre .brigadista totalCiudadanos
    (extractLocationInfo b.toWorkerRow) movilizadores
    (calculatePerformanceMetrics now b.toWorkerRow totalCiudadanos)
    (some parentId) (isWorkerActive now b.created_at) b.created_at

/-- `calculateTotalCiudadanos` (lider): nested reduce over brigadistas
and movilizadores of the leaf-row counts. -/
def calculateTotalCiudadanos (l : LiderRow) : Nat :=
  ((l.brigadistas.getD []).map
    (fun b => ((b.movilizadores.getD []).map movilizadorCiudadanosCount).sum)).sum

/-- `transformLiderToHierarchicalWorker`; a lider node carries no
`parentId`. -/
def transformLiderToHierarchicalWorker (now : Int) (l : LiderRow) : HierarchicalWorker :=
  let brigadistas := (l.brigadistas.getD []).map
    (fun b => transformBrigadistaToHierarchicalWorker now b l.id)
  let totalCiudadanos := calculateTotalCiudadanos l
  .mk l.id l.nombre .lider totalCiudadanos
    (extractLocationInfo l.toWorkerRow) brigadistas
    (calculatePerformanceMetrics now l.toWorkerRow totalCiudadanos)
    none (isWorkerActive now l.created_at) l.created_at

/-- `transformToHierarchicalWorkers`: `data.map(lider => transform(lider))`.
The function performs no validation of its input rows and has no failure
path. -/
def transformToHierarchicalWorkers (now : Int) (data : List LiderRow) :
    List HierarchicalWorker :=
  data.map (transformLiderToHierarchicalWorker now)

/-- `flattenHierarchy`'s inner `flatten(workers, level)`: pre-order push of
`{...worker, level}` (the node shallow-copied and annotated with its
depth), then recursion into a non-empty `children` array, then the rest
of the sibling list.  The annotated copy is modelled as a
`HierarchicalWorker × Nat` pair. -/
def flattenWorkers : List HierarchicalWorker → Nat → List (HierarchicalWorker × Nat)
  | [], _ => []
  | HierarchicalWorker.mk i n r c ub ch pf pid act la :: rest, level =>
    (HierarchicalWorker.mk i n r c ub ch pf pid act la, level) ::
      ((if ch.length > 0 then flattenWorkers ch (level + 1) else [])
        ++ flattenWorkers rest level)

/-- `flattenHierarchy(data)`: the top-level call starts at level 0. -/
def flattenHierarchy (data : List HierarchicalWorker) : List (HierarchicalWorker × Nat) :=
  flattenWorkers data 0

/-- Decision procedure for JS `hay.includes(needle)` on strings:
`jsStartsWith needle hay` checks that `needle` begins `hay`. -/
def jsStartsWith : List Char → List Char → Bool
  | [], _ => true
  | _ :: _, [] => false
  | a :: as, b :: bs => a == b && jsStartsWith as bs

/-- `jsContainsSub needle hay`: `needle` occurs contiguously in `hay`. -/
def jsContainsSub : List Char → List Char → Bool
  | needle, [] => needle.isEmpty
  | needle, b :: bs => jsStartsWith needle (b :: bs) || jsContainsSub needle bs

/-- JS `hay.includes(needle)`. -/
def jsIncludes (hay needle : String) : Bool :=
  jsContainsSub needle.toList hay.toList

/-- Optional-chaining match `field?.toLowerCase().includes(searchLower)`
coerced to the boolean value of the `||` chain: an absent field is falsy. -/
def optFieldMatches (f : Option String) (searchLower : String) : Bool :=
  match f with
  | none => false
  | some s => jsIncludes (jsToLower s) searchLower

/-- The filter predicate of `searchWorkers`: name or one of the four
location fields `entidad`, `municipio`, `colonia`, `seccion`
(the source does not consult `codigo_postal`). -/
def searchMatches (searchLower : String) (w : HierarchicalWorker) : Bool :=
  jsIncludes (jsToLower w.nombre) searchLower ||
  optFieldMatches w.ubicacion.entidad searchLower ||
  optFieldMatches w.ubicacion.municipio searchLower ||
  optFieldMatches w.ubicacion.colonia searchLower ||
  optFieldMatches w.ubicacion.seccion searchLower

/-- `searchWorkers` (data-path core, the fetched tree passed explicitly):
flatten, then filter by `searchMatches` against the lower-cased term. -/
def searchWorkers (searchTerm : String) (data : List HierarchicalWorker) :
    List (HierarchicalWorker × Nat) :=
  (flattenHierarchy data).filter (fun p => searchMatches (jsToLower searchTerm) p.1)

/-- `calculateOverallPerformanceScore`. -/
def calculateOverallPerformanceScore (w : HierarchicalWorker) : ℚ :=
  let activityScore : ℚ := if w.isActive then 100 else 0
  let registrationScore : ℚ := min ((w.ciudadanosRegistrados : ℚ) * 10) 100
  (w.performance.tasaVerificacion + w.performance.completitudDatos +
    activityScore + registrationScore) / 4

/-- The four performance band labels of `getWorkersByPerformance`. -/
inductive PerformanceLevel where
  | excellent
  | good
  | average
  | poor
deriving DecidableEq, Repr

/-- The `switch (level)` inside `getWorkersByPerformance`'s filter. -/
def performanceBandCheck (level : PerformanceLevel) (score : ℚ) : Bool :=
  match level with
  | .excellent => decide (score ≥ 90)
  | .good => decide (score ≥ 70) && decide (score < 90)
  | .average => decide (score ≥ 50) && decide (score < 70)
  | .poor => decide (score < 50)

/-- `getWorkersByPerformance` (data-path core): flatten, then filter by
the band check applied to the composite score. -/
def getWorkersByPerformance (level : PerformanceLevel) (data : List HierarchicalWorker) :
    List (HierarchicalWorker × Nat) :=
  (flattenHierarchy data).filter
    (fun p => performanceBandCheck level (calculateOverallPerformanceScore p.1))

/-- The `mostProductiveWorker` accumulator record of `getHierarchyStats`. -/
structure MostProductive where
  id : String
  name : String
  role : String
  ciudadanos : Nat
deriving DecidableEq, Repr

/-- `HierarchyStats` from `src/types/index.ts`. -/
structure HierarchyStats where
  totalLideres : Nat
  totalBrigadistas : Nat
  totalMovilizadores : Nat
  totalCiudadanos : Nat
  averageCiudadanosPorLider : ℚ
  averageCiudadanosPorBrigadista : ℚ
  averageCiudadanosPorMovilizador : ℚ
  deepestLevel : Nat
  mostProductiveWorker : MostProductive
deriving DecidableEq, Repr

/-- The mutable accumulators of `getHierarchyStats`'s triple `forEach`. -/
structure StatsAcc where
  totalLideres : Nat
  totalBrigadistas : Nat
  totalMovilizadores : Nat
  totalCiudadanos : Nat
  mostProductiveWorker : MostProductive
  deepestLevel : Nat
deriving DecidableEq, Repr

/-- The strictly-greater most-productive update (equal counts keep the
incumbent). -/
def updateMostProductive (acc : MostProductive) (w : HierarchicalWorker)
    (roleTag : String) : MostProductive :=
  if w.ciudadanosRegistrados > acc.ciudadanos then
    { id := w.id, name := w.nombre, role := roleTag, ciudadanos := w.ciudadanosRegistrados }
  else acc

/-- Innermost `forEach` body (movilizador level). -/
def processMovilizador (acc : StatsAcc) (m : HierarchicalWorker) : StatsAcc :=
  { acc with
      totalMovilizadores := acc.totalMovilizadores + 1
      deepestLevel := max acc.deepestLevel 3
      totalCiudadanos := acc.totalCiudadanos + m.ciudadanosRegistrados
      mostProductiveWorker := updateMostProductive acc.mostProductiveWorker m "movilizador" }

/-- Middle `forEach` body (brigadista level). -/
def processBrigadista (acc : StatsAcc) (b : HierarchicalWorker) : StatsAcc :=
  b.children.foldl processMovilizador
    { acc with
        totalBrigadistas := acc.totalBrigadistas + 1
        deepestLevel := max acc.deepestLevel 2
        mostProductiveWorker := updateMostProductive acc.mostProductiveWorker b "brigadista" }

/-- Outer `forEach` body (lider level). -/
def processLider (acc : StatsAcc) (l : HierarchicalWorker) : StatsAcc :=
  l.children.foldl processBrigadista
    { acc with
        totalLideres := acc.totalLideres + 1
        mostProductiveWorker := updateMostProductive acc.mostProductiveWorker l "lider" }

/-- `getHierarchyStats` (data-path core, on an already-fetched tree):
accumulate, then derive the averages, each guarded against a zero
denominator. -/
def getHierarchyStats (data : List HierarchicalWorker) : HierarchyStats :=
  let acc := data.foldl processLider
    { totalLideres := 0, totalBrigadistas := 0, totalMovilizadores := 0,
      totalCiudadanos := 0,
      mostProductiveWorker := { id := "", name := "", role := "", ciudadanos := 0 },
      deepestLevel := 1 }
  { totalLideres := acc.totalLideres
    totalBrigadistas := acc.totalBrigadistas
    totalMovilizadores := acc.totalMovilizadores
    totalCiudadanos := acc.totalCiudadanos
    averageCiudadanosPorLider :=
      if acc.totalLideres > 0 then (acc.totalCiudadanos : ℚ) / acc.totalLideres else 0
    averageCiudadanosPorBrigadista :=
      if acc.totalBrigadistas > 0 then (acc.totalCiudadanos : ℚ) / acc.totalBrigadistas else 0
    averageCiudadanosPorMovilizador :=
      if acc.totalMovilizadores > 0 then (acc.totalCiudadanos : ℚ) / acc.totalMovilizadores else 0
    deepestLevel := acc.deepestLevel
    mostProductiveWorker := acc.mostProductiveWorker }

/-- A cache entry `{ data, timestamp }`. -/
structure CacheEntry (α : Type) where
  data : α
  timestamp : Int
deriving DecidableEq

/-- The service cache, a `Map<string, CacheEntry>` modelled as an
insertion-ordered association list with unique keys. -/
abbrev Cache (α : Type) : Type := List (String × CacheEntry α)

/-- `Map.prototype.delete(key)`: remove the unique entry with that key. -/
def cacheDelete {α : Type} (c : Cache α) (key : String) : Cache α :=
  List.eraseP (fun p => p.1 == key) c

/-- `getFromCache`, with `Date.now()` passed explicitly: a missing key
reads as absent; an entry older than `CACHE_TTL` reads as absent and is
deleted on access; otherwise the stored data is returned unchanged.
The result pairs the read value with the possibly-updated cache map. -/
def getFromCache {α : Type} (c : Cache α) (key : String) (now : Int) :
    Option α × Cache α :=
  match List.lookup key c with
  | none => (none, c)
  | some e =>
    if now - e.timestamp > CACHE_TTL then (none, cacheDelete c key)
    else (some e.data, c)

/-- `Map.prototype.set(key, value)`: replace in place if present, else
append (insertion order preserved). -/
def mapSet {α : Type} (c : Cache α) (key : String) (e : CacheEntry α) : Cache α :=
  if (List.lookup key c).isSome then
    c.map (fun p => if p.1 == key then (key, e) else p)
  else
    c ++ [(key, e)]

/-- `setCache`: store `{data, timestamp: Date.now()}`, then if the map
holds more than 100 entries evict the oldest-inserted one. -/
def setCache {α : Type} (c : Cache α) (key : String) (d : α) (now : Int) : Cache α :=
  let updated := mapSet c key { data := d, timestamp := now }
  if updated.length > 100 then
    match updated with
    | [] => []
    | _ :: rest => rest
  else updated

end HierarchyService

/-- `WorkerAnalytics` from `src/types` as populated by
`WorkerAnalyticsService.getWorkerAnalytics`.  The `rendimientoTemporal`
field is omitted: `getWorkerTemporalPerformance` is a placeholder that
always returns `[]`, so the field is constantly empty and carries no
information. -/
structure WorkerAnalytics where
  workerId : String
  workerName : String
  role : Role
  ciudadanosRegistrados : Nat
  tasaVerificacion : ℚ
  completitudDatos : ℚ
  ubicacionGeografica : LocationInfo
  ranking : Nat
  tendencia : Trend
  ultimaActividad : Int
deriving DecidableEq, Repr

namespace WorkerAnalyticsService

/-- `calculateWorkerScore`:
`(tasaVerificacion + completitudDatos + ciudadanosRegistrados * 2) / 4`. -/
def calculateWorkerScore (w : WorkerAnalytics) : ℚ :=
  (w.tasaVerificacion + w.completitudDatos + (w.ciudadanosRegistrados : ℚ) * 2) / 4

/-- Stable descending sort by a rational key.  `Array.prototype.sort`
with the comparator `(a, b) => key(b) - key(a)` is required by the
ECMAScript specification to be a stable sort ordered so that consecutive
elements satisfy `key b ≤ key a`; that output is unique, and
`List.insertionSort` with this relation produces exactly it. -/
def sortDescBy {α : Type} (key : α → ℚ) (l : List α) : List α :=
  l.insertionSort (fun a b => key b ≤ key a)

/-- The element-wise construction inside `getWorkerAnalytics`'s
`hierarchicalData.map(async (worker, index) => ...)`: copy the node's
analytics fields and give the provisional ranking `index + 1`. -/
def workerAnalyticsOfNode (index : Nat) (p : HierarchicalWorker × Nat) : WorkerAnalytics :=
  { workerId := p.1.id
    workerName := p.1.nombre
    role := p.1.role
    ciudadanosRegistrados := p.1.ciudadanosRegistrados
    tasaVerificacion := p.1.performance.tasaVerificacion
    completitudDatos := p.1.performance.completitudDatos
    ubicacionGeografica := p.1.ubicacion
    ranking := index + 1
    tendencia := p.1.performance.tendencia
    ultimaActividad := p.1.performance.ultimaActividad }

/-- The ranking pass of `getWorkerAnalytics`: sort descending by
`calculateWorkerScore`, then overwrite every `ranking` with
`index + 1`. -/
def assignRankings (analytics : List WorkerAnalytics) : List WorkerAnalytics :=
  (sortDescBy calculateWorkerScore analytics).enum.map
    (fun q => { q.2 with ranking := q.1 + 1 })

/-- `getWorkerAnalytics` (data-path core): its flattened-hierarchy input
is passed explicitly.  (In the checked-in source the hierarchy fetch is
stubbed by `getFlattenedHierarchyTemp`, which returns `[]`; the
transformation and ranking logic is modelled over an arbitrary input
list.) -/
def getWorkerAnalytics (flattened : List (HierarchicalWorker × Nat)) :
    List WorkerAnalytics :=
  assignRankings (flattened.enum.map (fun q => workerAnalyticsOfNode q.1 q.2))

end WorkerAnalyticsService

/-! Specification-side definitions, used only to compare the code's
behaviour against the spec's wording. -/

/-- Modelled from the spec (§4.4): the composite score
`(verificationRate + dataCompleteness + activityScore + registrationScore) / 4`
with `activityScore = isActive ? 100 : 0` and
`registrationScore = min(registeredCount × 10, 100)`. -/
def specCompositeScore (w : HierarchicalWorker) : ℚ :=
  (w.performance.tasaVerificacion + w.performance.completitudDatos +
    (if w.isActive then (100 : ℚ) else 0) +
    min ((w.ciudadanosRegistrados : ℚ) * 10) 100) / 4

/-- Modelled from the spec (§4.5 search): a node matches when its name OR
any populated location field — region (`entidad`), sub-region
(`municipio`), sector (`seccion`), locality (`colonia`), postal code
(`codigo_postal`) — contains the lower-cased term as a substring. -/
def specSearchMatches (searchLower : String) (w : HierarchicalWorker) : Bool :=
  HierarchyService.jsIncludes (HierarchyService.jsToLower w.nombre) searchLower ||
  HierarchyService.optFieldMatches w.ubicacion.entidad searchLower ||
  HierarchyService.optFieldMatches w.ubicacion.municipio searchLower ||
  HierarchyService.optFieldMatches w.ubicacion.seccion searchLower ||
  HierarchyService.optFieldMatches w.ubicacion.colonia searchLower ||
  HierarchyService.optFieldMatches w.ubicacion.codigo_postal searchLower

/-- Modelled from the spec (§4.3 `assignRankings` together with §4.4):
rank the flattened nodes by sorting descending on the §4.4 composite
score and assigning `index + 1`; recorded as `(node id, ranking)`
pairs. -/
def specRankingByCompositeScore (flattened : List (HierarchicalWorker × Nat)) :
    List (String × Nat) :=
  (WorkerAnalyticsService.sortDescBy
      (fun p => HierarchyService.calculateOverallPerformanceScore p.1) flattened).enum.map
    (fun q => (q.2.1.id, q.1 + 1))

/-- The substring relation meant by "contains the term as a substring":
the needle's characters occur contiguously in the haystack. -/
def ContainsSub (hay needle : String) : Prop :=
  ∃ l r, hay.data = l ++ needle.data ++ r

/-! Concrete sample data used by individual counterexamples, scenario
checks and witnesses. -/

/-- An otherwise-blank worker row with the given id and name. -/
def plainWorkerRow (idStr : String) : WorkerRow :=
  { id := idStr, nombre := idStr, clave_electoral := none, curp := none,
    direccion := none, colonia := none, codigo_postal := none, seccion := none,
    entidad := none, municipio := none, numero_cel := none,
    num_verificado := false, created_at := 0 }

/-- The empty location record. -/
def noLocation : LocationInfo :=
  { entidad := none, municipio := none, seccion := none, colonia := none,
    codigo_postal := none }

/-- A movilizador node with one registration, unverified, incomplete,
inactive: §4.4 composite score `(0+0+0+10)/4 = 2.5`, analytics worker
score `(0+0+2)/4 = 0.5`. -/
def nodeOneRegistration : HierarchicalWorker :=
  .mk "A" "a" .movilizador 1 noLocation []
    ⟨1, 0, 0, 0, .stable, 0⟩ none false 0

/-- A movilizador node with 100 registrations but inactive and
unverified: §4.4 composite score `(0+0+0+100)/4 = 25`, analytics worker
score `(0+0+200)/4 = 50`. -/
def nodeManyRegistrations : HierarchicalWorker :=
  .mk "A" "a" .movilizador 100 noLocation []
    ⟨100, 0, 0, 0, .stable, 0⟩ none false 0

/-- A verified, active movilizador node with no registrations:
§4.4 composite score `(100+0+100+0)/4 = 50`, analytics worker score
`(100+0+0)/4 = 25`. -/
def nodeVerifiedActive : HierarchicalWorker :=
  .mk "B" "b" .movilizador 0 noLocation []
    ⟨0, 100, 0, 0, .stable, 0⟩ none true 0

/-- A node whose only populated location field is the postal code
`"12345"`. -/
def nodePostalOnly : HierarchicalWorker :=
  .mk "C" "c" .movilizador 0
    { entidad := none, municipio := none, seccion := none, colonia := none,
      codigo_postal := some "12345" } []
    ⟨0, 0, 0, 0, .stable, 0⟩ none false 0

/-- Scenario input (§8): one lider with two brigadistas, each with one
movilizador, whose leaf counts are 3 and 7. -/
def scenarioLider : LiderRow :=
  { toWorkerRow := plainWorkerRow "L",
    brigadistas := some
      [{ toWorkerRow := plainWorkerRow "B1",
         movilizadores := some
           [{ toWorkerRow := plainWorkerRow "M1",
              ciudadanos := some (List.replicate 3 ⟨"c"⟩) }] },
       { toWorkerRow := plainWorkerRow "B2",
         movilizadores := some
           [{ toWorkerRow := plainWorkerRow "M2",
              ciudadanos := some (List.replicate 7 ⟨"c"⟩) }] }] }

/-- A lider row whose identity and name are blank and whose optional
fields are all absent: the shape of a malformed gateway row. -/
def malformedLiderRow : LiderRow :=
  { toWorkerRow :=
      { id := "", nombre := "", clave_electoral := none, curp := none,
        direccion := none, colonia := none, codigo_postal := none,
        seccion := none, entidad := none, municipio := none,
        numero_cel := none, num_verificado := false, created_at := 0 },
    brigadistas := none }

/-- Descending comparison by a rational key is total. -/
instance instIsTotalDescKey {α : Type} (key : α → ℚ) :
    IsTotal α (fun a b => key b ≤ key a) :=
  ⟨fun a b => le_total (key b) (key a)⟩

/-- Descending comparison by a rational key is transitive. -/
instance instIsTransDescKey {α : Type} (key : α → ℚ) :
    IsTrans α (fun a b => key b ≤ key a) :=
  ⟨fun _ _ _ h1 h2 => h2.trans h1⟩

/-! # Theorems -/

namespace HierarchyService

/-- Equation lemma for `flattenWorkers` on a non-empty list, phrased with
the field accessors. -/
theorem flattenWorkers_cons (w : HierarchicalWorker) (rest : List HierarchicalWorker)
    (level : Nat) :
    flattenWorkers (w :: rest) level =
      (w, level) ::
        ((if w.children.length > 0 then flattenWorkers w.children (level + 1) else [])
          ++ flattenWorkers rest level) := by
  cases w with
  | mk i n r c ub ch pf pid act la => simp [flattenWorkers, HierarchicalWorker.children]

theorem flattenWorkers_nil (level : Nat) : flattenWorkers [] level = [] := by
  simp [flattenWorkers]

end HierarchyService

open HierarchyService WorkerAnalyticsService

/-- C7: `calculateDataCompleteness` is `100 × (populated fields) / 10`
over the fixed 10-field list, lies in `[0, 100]`, equals 100 when all
ten fields are populated, and equals 0 when no field is populated
(absent, empty, or whitespace-only). -/
theorem C7_calculateDataCompleteness (w : WorkerRow) :
    (completenessFields w).length = 10 ∧
    calculateDataCompleteness w =
      100 * ((completenessFields w).countP jsFieldPopulated : ℚ) / 10 ∧
    0 ≤ calculateDataCompleteness w ∧
    calculateDataCompleteness w ≤ 100 ∧
    ((∀ f ∈ completenessFields w, jsFieldPopulated f = true) →
      calculateDataCompleteness w = 100) ∧
    ((∀ f ∈ completenessFields w, jsFieldPopulated f = false) →
      calculateDataCompleteness w = 0) := by
  have hlen : (completenessFields w).length = 10 := rfl
  have hle : (completenessFields w).countP jsFieldPopulated ≤ 10 := by
    calc (completenessFields w).countP jsFieldPopulated
        ≤ (completenessFields w).length := List.countP_le_length _
      _ = 10 := hlen
  have hleQ : ((completenessFields w).countP jsFieldPopulated : ℚ) ≤ 10 := by
    exact_mod_cast hle
  refine ⟨hlen, by unfold calculateDataCompleteness; ring, ?_, ?_, ?_, ?_⟩
  · unfold calculateDataCompleteness
    positivity
  · unfold calculateDataCompleteness
    rw [show (((completenessFields w).countP jsFieldPopulated : ℚ) / 10) * 100 =
      10 * ((completenessFields w).countP jsFieldPopulated : ℚ) by ring]
    linarith
  · intro h
    have hc : (completenessFields w).countP jsFieldPopulated = 10 := by
      rw [List.countP_eq_length.mpr h, hlen]
    unfold calculateDataCompleteness
    rw [hc]
    norm_num
  · intro h
    have hc : (completenessFields w).countP jsFieldPopulated = 0 :=
      List.countP_eq_zero.mpr (by intro f hf; simp [h f hf])
    unfold calculateDataCompleteness
    rw [hc]
    norm_num

/-- Witness for C7 at two concrete rows: a fully-populated row scores
exactly 100; a row with blank name, one whitespace-only field, one empty
field and nothing else scores exactly 0. -/
theorem C7_witness :
    calculateDataCompleteness
        { id := "L1", nombre := "Nombre", clave_electoral := some "CE",
          curp := some "CURP", direccion := some "Dir", colonia := some "Col",
          codigo_postal := some "12345", seccion := some "001",
          entidad := some "Ent", municipio := some "Mun",
          numero_cel := some "555", num_verificado := true, created_at := 0 } = 100 ∧
    calculateDataCompleteness
        { id := "X", nombre := "", clave_electoral := none, curp := some "   ",
          direccion := none, colonia := none, codigo_postal := none,
          seccion := none, entidad := none, municipio := some "",
          numero_cel := none, num_verificado := false, created_at := 0 } = 0 :=
  ⟨(C7_calculateDataCompleteness _).2.2.2.2.1 (by decide),
   (C7_calculateDataCompleteness _).2.2.2.2.2 (by decide)⟩

/-- C2 counterexample: on a malformed input row — blank identity, blank
name, no optional fields — the builder does not fail: it returns a
one-node tree whose root carries the blank identity and name verbatim.
No `BuildError` type exists anywhere in the codebase. -/
theorem C2_counterexample :
    (transformToHierarchicalWorkers 0 [malformedLiderRow]).length = 1 ∧
    (transformToHierarchicalWorkers 0 [malformedLiderRow]).map
      HierarchicalWorker.id = [""] ∧
    (transformToHierarchicalWorkers 0 [malformedLiderRow]).map
      HierarchicalWorker.nombre = [""] := by
  refine ⟨rfl, rfl, rfl⟩

/-- C2 amended: the builder performs no input validation and has no
failure path — it totally maps every input row, malformed or not, to one
tree root, copying the identity and name fields verbatim. -/
theorem C2_amended (now : Int) (data : List LiderRow) :
    (transformToHierarchicalWorkers now data).length = data.length ∧
    transformToHierarchicalWorkers now data =
      data.map (transformLiderToHierarchicalWorker now) ∧
    ∀ l : LiderRow,
      (transformLiderToHierarchicalWorker now l).id = l.id ∧
      (transformLiderToHierarchicalWorker now l).nombre = l.nombre := by
  refine ⟨?_, rfl, fun l => ⟨rfl, rfl⟩⟩
  simp [transformToHierarchicalWorkers]

/-- A key that does not occur among an association list's keys looks up
to `none`. -/
theorem lookup_eq_none_of_key_not_mem {α : Type} (key : String) (c : Cache α)
    (h : key ∉ c.map Prod.fst) : List.lookup key c = none := by
  induction c with
  | nil => rfl
  | cons hd tl ih =>
    obtain ⟨k, e⟩ := hd
    simp only [List.map_cons, List.mem_cons] at h
    push_neg at h
    obtain ⟨h1, h2⟩ := h
    have hb : (key == k) = false := beq_eq_false_iff_ne.mpr h1
    simp [List.lookup, hb, ih h2]

/-- After `cacheDelete c key` on a cache with `Nodup` keys, `key` is
gone. -/
theorem lookup_cacheDelete_self {α : Type} (c : Cache α) (key : String)
    (h : (c.map Prod.fst).Nodup) :
    List.lookup key (cacheDelete c key) = none := by
  induction c with
  | nil => rfl
  | cons hd tl ih =>
    obtain ⟨k, e⟩ := hd
    simp only [List.map_cons, List.nodup_cons] at h
    obtain ⟨hk, htl⟩ := h
    by_cases hkey : k = key
    · subst hkey
      simp only [cacheDelete, List.eraseP_cons, beq_self_eq_true, cond_true]
      exact lookup_eq_none_of_key_not_mem _ _ hk
    · have hb : (k == key) = false := beq_eq_false_iff_ne.mpr hkey
      have hb' : (key == k) = false := beq_eq_false_iff_ne.mpr (Ne.symm hkey)
      simp only [cacheDelete, List.eraseP_cons, hb, cond_false, List.lookup, hb']
      exact ih htl

/-- C8: a cache read at time `now` of a key stored with timestamp `t`
returns the stored data when `now − t ≤ CACHE_TTL`, and when
`now − t > CACHE_TTL` reads as absent and deletes the entry (lazy expiry
on access); in particular a value stored at `T` into an empty cache and
read at `T + CACHE_TTL + 1` is absent and removed. -/
theorem C8_cacheExpiry :
    (∀ (α : Type) (c : Cache α) (key : String) (now : Int) (e : CacheEntry α),
       (c.map Prod.fst).Nodup →
       List.lookup key c = some e →
       ((now - e.timestamp ≤ CACHE_TTL →
           getFromCache c key now = (some e.data, c)) ∧
        (now - e.timestamp > CACHE_TTL →
           getFromCache c key now = (none, cacheDelete c key) ∧
           List.lookup key (getFromCache c key now).2 = none))) ∧
    (∀ (α : Type) (key : String) (d : α) (T : Int),
       getFromCache (setCache [] key d T) key (T + CACHE_TTL + 1) = (none, [])) := by
  constructor
  · intro α c key now e hnodup hlookup
    constructor
    · intro hfresh
      unfold getFromCache
      rw [hlookup]
      simp only [if_neg (by omega : ¬ now - e.timestamp > CACHE_TTL)]
    · intro hstale
      have hres : getFromCache c key now = (none, cacheDelete c key) := by
        unfold getFromCache
        rw [hlookup]
        simp only [if_pos hstale]
      refine ⟨hres, ?_⟩
      rw [hres]
      exact lookup_cacheDelete_self c key hnodup
  · intro α key d T
    have hset : setCache ([] : Cache α) key d T = [(key, ⟨d, T⟩)] := rfl
    rw [hset]
    unfold getFromCache
    have hl : List.lookup key [(key, (⟨d, T⟩ : CacheEntry α))] = some ⟨d, T⟩ := by
      simp [List.lookup]
    rw [hl]
    have hstale : T + CACHE_TTL + 1 - (⟨d, T⟩ : CacheEntry α).timestamp > CACHE_TTL := by
      simp only [CACHE_TTL]
      omega
    simp only [if_pos hstale]
    simp [cacheDelete]

/-- Witness for C8 at a concrete one-entry `Nat` cache with
`TTL = 300000`: a read 100 ms after storing returns the value; a read
300001 ms after storing returns absent and leaves the cache empty. -/
theorem C8_witness :
    getFromCache [("k", (⟨42, 0⟩ : CacheEntry Nat))] "k" 100 =
      (some 42, [("k", (⟨42, 0⟩ : CacheEntry Nat))]) ∧
    getFromCache [("k", (⟨42, 0⟩ : CacheEntry Nat))] "k" 300001 = (none, []) := by
  constructor
  · exact (C8_cacheExpiry.1 Nat [("k", ⟨42, 0⟩)] "k" 100 ⟨42, 0⟩ (by decide)
      (by decide)).1 (by decide)
  · have h := (C8_cacheExpiry.1 Nat [("k", ⟨42, 0⟩)] "k" 300001 ⟨42, 0⟩ (by decide)
      (by decide)).2 (by decide)
    rw [h.1]
    rfl

/-- C6: the performance-band classifier is inclusive at each lower bound
and exclusive at each upper bound (no upper bound for the top band):
`excellent ↔ score ≥ 90`, `good ↔ 70 ≤ score < 90`,
`average ↔ 50 ≤ score < 70`, `poor ↔ score < 50`; a score of exactly 90
is excellent and a score of 69.999 is average, not good; and
`getWorkersByPerformance` keeps exactly the flattened nodes whose
composite score passes the requested band's check. -/
theorem C6_performanceBands :
    (∀ s : ℚ, performanceBandCheck .excellent s = true ↔ 90 ≤ s) ∧
    (∀ s : ℚ, performanceBandCheck .good s = true ↔ 70 ≤ s ∧ s < 90) ∧
    (∀ s : ℚ, performanceBandCheck .average s = true ↔ 50 ≤ s ∧ s < 70) ∧
    (∀ s : ℚ, performanceBandCheck .poor s = true ↔ s < 50) ∧
    performanceBandCheck .excellent 90 = true ∧
    performanceBandCheck .average (69999 / 1000) = true ∧
    performanceBandCheck .good (69999 / 1000) = false ∧
    (∀ (level : PerformanceLevel) (data : List HierarchicalWorker)
       (p : HierarchicalWorker × Nat),
       p ∈ getWorkersByPerformance level data ↔
         p ∈ flattenHierarchy data ∧
         performanceBandCheck level (calculateOverallPerformanceScore p.1) = true) := by
  refine ⟨?_, ?_, ?_, ?_, ?_, ?_, ?_, ?_⟩
  · intro s; simp [performanceBandCheck, ge_iff_le]
  · intro s; simp [performanceBandCheck, ge_iff_le]
  · intro s; simp [performanceBandCheck, ge_iff_le]
  · intro s; simp [performanceBandCheck]
  · simp [performanceBandCheck]
  · simp only [performanceBandCheck, Bool.and_eq_true, decide_eq_true_iff]
    norm_num
  · simp only [performanceBandCheck, Bool.and_eq_true, decide_eq_true_iff]
    norm_num
  · intro level data p
    simp [getWorkersByPerformance, List.mem_filter]

/-- C3 counterexample: at a concrete node with one registration,
unverified, incomplete data and inactive, the score used by the ranking
sort pass (`calculateWorkerScore`, which adds `registeredCount × 2` and
has no activity term) is `0.5`, while the claimed composite score
formula gives `2.5` — the ranking sort is not governed by the §4.4
formula. -/
theorem C3_counterexample :
    calculateWorkerScore (workerAnalyticsOfNode 0 (nodeOneRegistration, 0)) ≠
      calculateOverallPerformanceScore nodeOneRegistration ∧
    calculateWorkerScore (workerAnalyticsOfNode 0 (nodeOneRegistration, 0)) = 1 / 2 ∧
    calculateOverallPerformanceScore nodeOneRegistration = 5 / 2 := by
  have h1 : calculateWorkerScore (workerAnalyticsOfNode 0 (nodeOneRegistration, 0)) =
      1 / 2 := by
    norm_num [calculateWorkerScore, workerAnalyticsOfNode, nodeOneRegistration,
      HierarchicalWorker.performance, HierarchicalWorker.ciudadanosRegistrados,
      HierarchicalWorker.isActive, HierarchicalWorker.id, HierarchicalWorker.nombre,
      HierarchicalWorker.role, HierarchicalWorker.ubicacion]
  have h2 : calculateOverallPerformanceScore nodeOneRegistration = 5 / 2 := by
    norm_num [calculateOverallPerformanceScore, nodeOneRegistration,
      HierarchicalWorker.performance, HierarchicalWorker.ciudadanosRegistrados,
      HierarchicalWorker.isActive, min_def]
  refine ⟨?_, h1, h2⟩
  rw [h1, h2]
  norm_num

/-- C3 amended: `calculateOverallPerformanceScore` (used by the
performance-band filter) equals the §4.4 composite formula, but the
ranking sort pass of `getWorkerAnalytics` uses the different score
`(tasaVerificacion + completitudDatos + 2 × registeredCount) / 4`, with
no activity term and no cap on the registration term. -/
theorem C3_amended :
    (∀ w : HierarchicalWorker,
       calculateOverallPerformanceScore w = specCompositeScore w) ∧
    (∀ a : WorkerAnalytics,
       calculateWorkerScore a =
         (a.tasaVerificacion + a.completitudDatos +
           2 * (a.ciudadanosRegistrados : ℚ)) / 4) ∧
    (∀ analytics : List WorkerAnalytics,
       assignRankings analytics =
         (sortDescBy calculateWorkerScore analytics).enum.map
           (fun q => { q.2 with ranking := q.1 + 1 })) := by
  refine ⟨fun w => rfl, fun a => ?_, fun analytics => rfl⟩
  unfold calculateWorkerScore
  ring

/-- `sortDescBy` preserves length. -/
theorem length_sortDescBy {α : Type} (key : α → ℚ) (l : List α) :
    (sortDescBy key l).length = l.length :=
  List.length_insertionSort _ l

/-- `sortDescBy` output is pairwise descending in the key. -/
theorem sortDescBy_pairwise {α : Type} (key : α → ℚ) (l : List α) :
    (sortDescBy key l).Pairwise (fun a b => key b ≤ key a) :=
  List.sorted_insertionSort _ l

/-- Overwriting rankings with `index + 1` over any list yields exactly
the ranking list `[1, ..., length]`. -/
theorem ranking_map_of_assign (l : List WorkerAnalytics) :
    ((l.enum.map (fun q => { q.2 with ranking := q.1 + 1 })).map
        WorkerAnalytics.ranking) =
      List.range' 1 l.length := by
  rw [List.map_map]
  have h1 : (WorkerAnalytics.ranking ∘ fun q : Nat × WorkerAnalytics =>
      { q.2 with ranking := q.1 + 1 }) = fun q : Nat × WorkerAnalytics => q.1 + 1 := rfl
  rw [h1]
  have h2 : (fun q : Nat × WorkerAnalytics => q.1 + 1) =
      ((fun x : Nat => 1 + x) ∘ Prod.fst) := by
    funext q
    simp [Nat.add_comm]
  rw [h2, ← List.map_map, List.enum_map_fst, List.range_eq_range']
  exact List.map_add_range' 1 0 l.length 1

/-- C4 counterexample: over the two concrete flattened nodes `A`
(100 registrations, unverified, inactive) and `B` (verified, active, no
registrations), the code's ranking pass puts `A` first — it sorts by
`calculateWorkerScore` (A: 50, B: 25) — while sorting descending by the
§4.4 composite score (A: 25, B: 50), as the claim states, would put `B`
first. -/
theorem C4_counterexample :
    (getWorkerAnalytics [(nodeManyRegistrations, 0), (nodeVerifiedActive, 0)]).map
        (fun a => (a.workerId, a.ranking)) = [("A", 1), ("B", 2)] ∧
    specRankingByCompositeScore [(nodeManyRegistrations, 0), (nodeVerifiedActive, 0)] =
      [("B", 1), ("A", 2)] := by
  have hA : calculateWorkerScore
      (workerAnalyticsOfNode 0 (nodeManyRegistrations, 0)) = 50 := by
    norm_num [calculateWorkerScore, workerAnalyticsOfNode, nodeManyRegistrations,
      HierarchicalWorker.performance, HierarchicalWorker.ciudadanosRegistrados]
  have hB : calculateWorkerScore
      (workerAnalyticsOfNode 1 (nodeVerifiedActive, 0)) = 25 := by
    norm_num [calculateWorkerScore, workerAnalyticsOfNode, nodeVerifiedActive,
      HierarchicalWorker.performance, HierarchicalWorker.ciudadanosRegistrados]
  have hA' : calculateOverallPerformanceScore nodeManyRegistrations = 25 := by
    norm_num [calculateOverallPerformanceScore, nodeManyRegistrations,
      HierarchicalWorker.performance, HierarchicalWorker.ciudadanosRegistrados,
      HierarchicalWorker.isActive, min_def]
  have hB' : calculateOverallPerformanceScore nodeVerifiedActive = 50 := by
    norm_num [calculateOverallPerformanceScore, nodeVerifiedActive,
      HierarchicalWorker.performance, HierarchicalWorker.ciudadanosRegistrados,
      HierarchicalWorker.isActive, min_def]
  constructor
  · show ((assignRankings _).map _) = _
    rw [show ([(nodeManyRegistrations, 0), (nodeVerifiedActive, 0)].enum.map
        (fun q => workerAnalyticsOfNode q.1 q.2)) =
        [workerAnalyticsOfNode 0 (nodeManyRegistrations, 0),
         workerAnalyticsOfNode 1 (nodeVerifiedActive, 0)] from rfl]
    unfold assignRankings sortDescBy
    rw [show List.insertionSort
        (fun a b => calculateWorkerScore b ≤ calculateWorkerScore a)
        [workerAnalyticsOfNode 0 (nodeManyRegistrations, 0),
         workerAnalyticsOfNode 1 (nodeVerifiedActive, 0)] =
      List.orderedInsert _ (workerAnalyticsOfNode 0 (nodeManyRegistrations, 0))
        [workerAnalyticsOfNode 1 (nodeVerifiedActive, 0)] from rfl]
    rw [List.orderedInsert, if_pos (by rw [hA, hB]; norm_num)]
    rfl
  · unfold specRankingByCompositeScore sortDescBy
    rw [show List.insertionSort
        (fun a b : HierarchicalWorker × Nat =>
          calculateOverallPerformanceScore b.1 ≤ calculateOverallPerformanceScore a.1)
        [(nodeManyRegistrations, 0), (nodeVerifiedActive, 0)] =
      List.orderedInsert _ (nodeManyRegistrations, 0) [(nodeVerifiedActive, 0)] from rfl]
    rw [List.orderedInsert, if_neg (by rw [hA', hB']; norm_num)]
    rfl

/-- C4 amended: after the ranking pass of `getWorkerAnalytics` over N
flattened workers the assigned rankings are exactly `[1, ..., N]` — no
gaps, no duplicates — assigned as `index + 1` over the analytics list
sorted descending by `calculateWorkerScore` (the analytics worker score,
not the §4.4 composite score; see C3). -/
theorem C4_rankingDensity (flattened : List (HierarchicalWorker × Nat)) :
    (getWorkerAnalytics flattened).map WorkerAnalytics.ranking =
      List.range' 1 flattened.length ∧
    (getWorkerAnalytics flattened).Pairwise
      (fun a b => calculateWorkerScore b ≤ calculateWorkerScore a) := by
  constructor
  · unfold getWorkerAnalytics assignRankings
    rw [ranking_map_of_assign]
    rw [length_sortDescBy, List.length_map, List.enum_length]
  · unfold getWorkerAnalytics assignRankings
    apply List.pairwise_map.mpr
    have hs := sortDescBy_pairwise calculateWorkerScore
      (flattened.enum.map (fun q => workerAnalyticsOfNode q.1 q.2))
    have hsnd : List.Pairwise
        (fun q1 q2 : Nat × WorkerAnalytics =>
          calculateWorkerScore q2.2 ≤ calculateWorkerScore q1.2)
        ((sortDescBy calculateWorkerScore
          (flattened.enum.map (fun q => workerAnalyticsOfNode q.1 q.2))).enum) := by
      have hx : List.Pairwise
          (fun a b : WorkerAnalytics => calculateWorkerScore b ≤ calculateWorkerScore a)
          ((sortDescBy calculateWorkerScore
            (flattened.enum.map (fun q => workerAnalyticsOfNode q.1 q.2))).enum.map
              Prod.snd) := by
        rw [List.enum_map_snd]
        exact hs
      exact List.pairwise_map.mp hx
    exact hsnd.imp (fun h => h)

/-- Field equations of the three node transforms (all definitional). -/
theorem children_transformLider (now : Int) (l : LiderRow) :
    (transformLiderToHierarchicalWorker now l).children =
      (l.brigadistas.getD []).map
        (fun b => transformBrigadistaToHierarchicalWorker now b l.id) := rfl

theorem count_transformLider (now : Int) (l : LiderRow) :
    (transformLiderToHierarchicalWorker now l).ciudadanosRegistrados =
      calculateTotalCiudadanos l := rfl

theorem children_transformBrigadista (now : Int) (b : BrigadistaRow) (pid : String) :
    (transformBrigadistaToHierarchicalWorker now b pid).children =
      (b.movilizadores.getD []).map
        (fun m => transformMovilizadorToHierarchicalWorker now m b.id) := rfl

theorem count_transformBrigadista (now : Int) (b : BrigadistaRow) (pid : String) :
    (transformBrigadistaToHierarchicalWorker now b pid).ciudadanosRegistrados =
      brigadistaTotalCiudadanos b := rfl

theorem children_transformMovilizador (now : Int) (m : MovilizadorRow) (pid : String) :
    (transformMovilizadorToHierarchicalWorker now m pid).children = [] := rfl

theorem count_transformMovilizador (now : Int) (m : MovilizadorRow) (pid : String) :
    (transformMovilizadorToHierarchicalWorker now m pid).ciudadanosRegistrados =
      movilizadorCiudadanosCount m := rfl

/-- C1: in every built tree, a lider node's `ciudadanosRegistrados` is
the sum over its brigadista children of the sums of their movilizador
children's counts (i.e. the total of all level-3 counts in its subtree),
a brigadista node's count is the sum of its movilizador children's
counts, movilizador nodes are the leaves of the node tree, and a
movilizador node's count is the length of its own `ciudadanos` row
collection. -/
theorem C1_registeredCountInvariant (now : Int) (data : List LiderRow) :
    (∀ root ∈ transformToHierarchicalWorkers now data,
       root.role = Role.lider ∧
       root.ciudadanosRegistrados =
         (root.children.map (fun b =>
           (b.children.map HierarchicalWorker.ciudadanosRegistrados).sum)).sum ∧
       ∀ b ∈ root.children,
         b.role = Role.brigadista ∧
         b.ciudadanosRegistrados =
           (b.children.map HierarchicalWorker.ciudadanosRegistrados).sum ∧
         ∀ m ∈ b.children, m.role = Role.movilizador ∧ m.children = []) ∧
    (∀ (m : MovilizadorRow) (pid : String),
       (transformMovilizadorToHierarchicalWorker now m pid).ciudadanosRegistrados =
         (m.ciudadanos.getD []).length) := by
  constructor
  · intro root hroot
    obtain ⟨l, _, rfl⟩ := List.mem_map.mp hroot
    refine ⟨rfl, ?_, ?_⟩
    · rw [count_transformLider, children_transformLider, List.map_map]
      have hfun : ((fun b => (b.children.map HierarchicalWorker.ciudadanosRegistrados).sum) ∘
          (fun b => transformBrigadistaToHierarchicalWorker now b l.id)) =
          (fun b : BrigadistaRow =>
            ((b.movilizadores.getD []).map movilizadorCiudadanosCount).sum) := by
        funext b
        simp only [Function.comp_apply, children_transformBrigadista, List.map_map]
        have hinner : (HierarchicalWorker.ciudadanosRegistrados ∘
            (fun m => transformMovilizadorToHierarchicalWorker now m b.id)) =
            movilizadorCiudadanosCount := by
          funext m
          simp only [Function.comp_apply, count_transformMovilizador]
        rw [hinner]
      rw [hfun]
      rfl
    · intro b hb
      rw [children_transformLider] at hb
      obtain ⟨brow, _, rfl⟩ := List.mem_map.mp hb
      refine ⟨rfl, ?_, ?_⟩
      · rw [count_transformBrigadista, children_transformBrigadista, List.map_map]
        have hinner : (HierarchicalWorker.ciudadanosRegistrados ∘
            (fun m => transformMovilizadorToHierarchicalWorker now m brow.id)) =
            movilizadorCiudadanosCount := by
          funext m
          simp only [Function.comp_apply, count_transformMovilizador]
        rw [hinner]
        rfl
      · intro m hm
        rw [children_transformBrigadista] at hm
        obtain ⟨mrow, _, rfl⟩ := List.mem_map.mp hm
        exact ⟨rfl, rfl⟩
  · intro m pid
    rfl

/-- Witness for C1 at the concrete scenario tree (two brigadistas with
movilizador leaf counts 3 and 7): the root's count equals the sum over
its grandchildren. -/
theorem C1_witness :
    (transformLiderToHierarchicalWorker 0 scenarioLider).ciudadanosRegistrados =
      ((transformLiderToHierarchicalWorker 0 scenarioLider).children.map (fun b =>
        (b.children.map HierarchicalWorker.ciudadanosRegistrados).sum)).sum :=
  ((C1_registeredCountInvariant 0 [scenarioLider]).1
    (transformLiderToHierarchicalWorker 0 scenarioLider)
    (List.mem_singleton.mpr rfl)).2.1

/-- Accumulator totals after the movilizador-level loop. -/
theorem statsAcc_foldl_mov (ms : List HierarchicalWorker) (acc : StatsAcc) :
    ((ms.foldl processMovilizador acc).totalLideres = acc.totalLideres) ∧
    ((ms.foldl processMovilizador acc).totalBrigadistas = acc.totalBrigadistas) ∧
    ((ms.foldl processMovilizador acc).totalMovilizadores =
      acc.totalMovilizadores + ms.length) ∧
    ((ms.foldl processMovilizador acc).totalCiudadanos =
      acc.totalCiudadanos + (ms.map HierarchicalWorker.ciudadanosRegistrados).sum) := by
  induction ms generalizing acc with
  | nil => simp
  | cons m rest ih =>
    obtain ⟨h1, h2, h3, h4⟩ := ih (processMovilizador acc m)
    simp only [List.foldl_cons, List.map_cons, List.sum_cons, List.length_cons]
    refine ⟨?_, ?_, ?_, ?_⟩
    · rw [h1]; simp [processMovilizador]
    · rw [h2]; simp [processMovilizador]
    · rw [h3]; simp only [processMovilizador]; omega
    · rw [h4]; simp only [processMovilizador]; omega

/-- Accumulator totals after the brigadista-level loop. -/
theorem statsAcc_foldl_brig (bs : List HierarchicalWorker) (acc : StatsAcc) :
    ((bs.foldl processBrigadista acc).totalLideres = acc.totalLideres) ∧
    ((bs.foldl processBrigadista acc).totalBrigadistas =
      acc.totalBrigadistas + bs.length) ∧
    ((bs.foldl processBrigadista acc).totalMovilizadores =
      acc.totalMovilizadores + (bs.map (fun b => b.children.length)).sum) ∧
    ((bs.foldl processBrigadista acc).totalCiudadanos =
      acc.totalCiudadanos + (bs.map (fun b =>
        (b.children.map HierarchicalWorker.ciudadanosRegistrados).sum)).sum) := by
  induction bs generalizing acc with
  | nil => simp
  | cons b rest ih =>
    obtain ⟨h1, h2, h3, h4⟩ := ih (processBrigadista acc b)
    obtain ⟨g1, g2, g3, g4⟩ := statsAcc_foldl_mov b.children
      { acc with
          totalBrigadistas := acc.totalBrigadistas + 1
          deepestLevel := max acc.deepestLevel 2
          mostProductiveWorker := updateMostProductive acc.mostProductiveWorker b "brigadista" }
    simp only [List.foldl_cons, List.map_cons, List.sum_cons, List.length_cons]
    refine ⟨?_, ?_, ?_, ?_⟩
    · rw [h1]; simp only [processBrigadista]; rw [g1]
    · rw [h2]; simp only [processBrigadista]; rw [g2]; dsimp only; omega
    · rw [h3]; simp only [processBrigadista]; rw [g3]; dsimp only; omega
    · rw [h4]; simp only [processBrigadista]; rw [g4]; dsimp only; omega

/-- Accumulator totals after the lider-level loop. -/
theorem statsAcc_foldl_lider (ls : List HierarchicalWorker) (acc : StatsAcc) :
    ((ls.foldl processLider acc).totalLideres = acc.totalLideres + ls.length) ∧
    ((ls.foldl processLider acc).totalBrigadistas =
      acc.totalBrigadistas + (ls.map (fun l => l.children.length)).sum) ∧
    ((ls.foldl processLider acc).totalMovilizadores =
      acc.totalMovilizadores + (ls.map (fun l =>
        (l.children.map (fun b => b.children.length)).sum)).sum) ∧
    ((ls.foldl processLider acc).totalCiudadanos =
      acc.totalCiudadanos + (ls.map (fun l => (l.children.map (fun b =>
        (b.children.map HierarchicalWorker.ciudadanosRegistrados).sum)).sum)).sum) := by
  induction ls generalizing acc with
  | nil => simp
  | cons l rest ih =>
    obtain ⟨h1, h2, h3, h4⟩ := ih (processLider acc l)
    obtain ⟨g1, g2, g3, g4⟩ := statsAcc_foldl_brig l.children
      { acc with
          totalLideres := acc.totalLideres + 1
          mostProductiveWorker := updateMostProductive acc.mostProductiveWorker l "lider" }
    simp only [List.foldl_cons, List.map_cons, List.sum_cons, List.length_cons]
    refine ⟨?_, ?_, ?_, ?_⟩
    · rw [h1]; simp only [processLider]; rw [g1]; dsimp only; omega
    · rw [h2]; simp only [processLider]; rw [g2]; dsimp only; omega
    · rw [h3]; simp only [processLider]; rw [g3]; dsimp only; omega
    · rw [h4]; simp only [processLider]; rw [g4]; dsimp only; omega

/-- C9: `getHierarchyStats` totals are the per-level node counts and the
total of the level-3 nodes' registration counts, and each per-level
average is `totalCiudadanos / (nodes at that level)` with an explicit
zero result (not NaN, not an error) when that level has no nodes; in the
3-and-7 scenario tree the stats report 2 movilizadores, 10 ciudadanos,
and an average of exactly 5, with the root's count equal to 10. -/
theorem C9_statsAverages :
    (∀ data : List HierarchicalWorker,
       (getHierarchyStats data).totalLideres = data.length ∧
       (getHierarchyStats data).totalBrigadistas =
         (data.map (fun l => l.children.length)).sum ∧
       (getHierarchyStats data).totalMovilizadores =
         (data.map (fun l => (l.children.map (fun b => b.children.length)).sum)).sum ∧
       (getHierarchyStats data).totalCiudadanos =
         (data.map (fun l => (l.children.map (fun b =>
           (b.children.map HierarchicalWorker.ciudadanosRegistrados).sum)).sum)).sum ∧
       (getHierarchyStats data).averageCiudadanosPorLider =
         (if (getHierarchyStats data).totalLideres > 0 then
           ((getHierarchyStats data).totalCiudadanos : ℚ) /
             ((getHierarchyStats data).totalLideres : ℚ)
          else 0) ∧
       (getHierarchyStats data).averageCiudadanosPorBrigadista =
         (if (getHierarchyStats data).totalBrigadistas > 0 then
           ((getHierarchyStats data).totalCiudadanos : ℚ) /
             ((getHierarchyStats data).totalBrigadistas : ℚ)
          else 0) ∧
       (getHierarchyStats data).averageCiudadanosPorMovilizador =
         (if (getHierarchyStats data).totalMovilizadores > 0 then
           ((getHierarchyStats data).totalCiudadanos : ℚ) /
             ((getHierarchyStats data).totalMovilizadores : ℚ)
          else 0)) ∧
    ((getHierarchyStats
        (transformToHierarchicalWorkers 0 [scenarioLider])).totalMovilizadores = 2 ∧
     (getHierarchyStats
        (transformToHierarchicalWorkers 0 [scenarioLider])).totalCiudadanos = 10 ∧
     (getHierarchyStats
        (transformToHierarchicalWorkers 0 [scenarioLider])).averageCiudadanosPorMovilizador
       = 5 ∧
     (transformToHierarchicalWorkers 0 [scenarioLider]).map
       HierarchicalWorker.ciudadanosRegistrados = [10]) := by
  have hAll : ∀ data : List HierarchicalWorker,
      (getHierarchyStats data).totalLideres = data.length ∧
      (getHierarchyStats data).totalBrigadistas =
        (data.map (fun l => l.children.length)).sum ∧
      (getHierarchyStats data).totalMovilizadores =
        (data.map (fun l => (l.children.map (fun b => b.children.length)).sum)).sum ∧
      (getHierarchyStats data).totalCiudadanos =
        (data.map (fun l => (l.children.map (fun b =>
          (b.children.map HierarchicalWorker.ciudadanosRegistrados).sum)).sum)).sum ∧
      (getHierarchyStats data).averageCiudadanosPorLider =
        (if (getHierarchyStats data).totalLideres > 0 then
          ((getHierarchyStats data).totalCiudadanos : ℚ) /
            ((getHierarchyStats data).totalLideres : ℚ)
         else 0) ∧
      (getHierarchyStats data).averageCiudadanosPorBrigadista =
        (if (getHierarchyStats data).totalBrigadistas > 0 then
          ((getHierarchyStats data).totalCiudadanos : ℚ) /
            ((getHierarchyStats data).totalBrigadistas : ℚ)
         else 0) ∧
      (getHierarchyStats data).averageCiudadanosPorMovilizador =
        (if (getHierarchyStats data).totalMovilizadores > 0 then
          ((getHierarchyStats data).totalCiudadanos : ℚ) /
            ((getHierarchyStats data).totalMovilizadores : ℚ)
         else 0) := by
    intro data
    obtain ⟨h1, h2, h3, h4⟩ := statsAcc_foldl_lider data
      { totalLideres := 0, totalBrigadistas := 0, totalMovilizadores := 0,
        totalCiudadanos := 0,
        mostProductiveWorker := { id := "", name := "", role := "", ciudadanos := 0 },
        deepestLevel := 1 }
    refine ⟨?_, ?_, ?_, ?_, rfl, rfl, rfl⟩
    · show (List.foldl processLider _ data).totalLideres = _
      rw [h1]; dsimp only; omega
    · show (List.foldl processLider _ data).totalBrigadistas = _
      rw [h2]; dsimp only; omega
    · show (List.foldl processLider _ data).totalMovilizadores = _
      rw [h3]; dsimp only; omega
    · show (List.foldl processLider _ data).totalCiudadanos = _
      rw [h4]; dsimp only; omega
  refine ⟨hAll, ?_⟩
  have hMov : (getHierarchyStats
      (transformToHierarchicalWorkers 0 [scenarioLider])).totalMovilizadores = 2 := by
    decide
  have hCiud : (getHierarchyStats
      (transformToHierarchicalWorkers 0 [scenarioLider])).totalCiudadanos = 10 := by
    decide
  have havg :=
    (hAll (transformToHierarchicalWorkers 0 [scenarioLider])).2.2.2.2.2.2
  rw [hMov, hCiud] at havg
  refine ⟨hMov, hCiud, ?_, by decide⟩
  rw [havg]
  norm_num

/-- The builder writes `ranking := 0` into every movilizador node. -/
theorem ranking_transformMovilizador (now : Int) (m : MovilizadorRow) (pid : String) :
    (transformMovilizadorToHierarchicalWorker now m pid).performance.ranking = 0 := rfl

/-- The builder writes `ranking := 0` into every brigadista node. -/
theorem ranking_transformBrigadista (now : Int) (b : BrigadistaRow) (pid : String) :
    (transformBrigadistaToHierarchicalWorker now b pid).performance.ranking = 0 := rfl

/-- The builder writes `ranking := 0` into every lider node. -/
theorem ranking_transformLider (now : Int) (l : LiderRow) :
    (transformLiderToHierarchicalWorker now l).performance.ranking = 0 := rfl

/-- Every flattened node of a list of built movilizador nodes has
ranking 0. -/
theorem ranking_flattenWorkers_movRows (now : Int) (pid : String)
    (ms : List MovilizadorRow) (lvl : Nat) :
    ∀ p ∈ flattenWorkers
        (ms.map (fun m => transformMovilizadorToHierarchicalWorker now m pid)) lvl,
      p.1.performance.ranking = 0 := by
  induction ms with
  | nil =>
    intro p hp
    rw [List.map_nil, flattenWorkers_nil] at hp
    exact absurd hp (List.not_mem_nil p)
  | cons m rest ih =>
    intro p hp
    rw [List.map_cons, flattenWorkers_cons, children_transformMovilizador] at hp
    simp only [List.length_nil, gt_iff_lt, Nat.lt_irrefl, if_false,
      List.nil_append] at hp
    rcases List.mem_cons.mp hp with h | h
    · rw [h]
      exact ranking_transformMovilizador now m pid
    · exact ih p h

/-- Every flattened node of a list of built brigadista subtrees has
ranking 0. -/
theorem ranking_flattenWorkers_brigRows (now : Int) (pid : String)
    (bs : List BrigadistaRow) (lvl : Nat) :
    ∀ p ∈ flattenWorkers
        (bs.map (fun b => transformBrigadistaToHierarchicalWorker now b pid)) lvl,
      p.1.performance.ranking = 0 := by
  induction bs with
  | nil =>
    intro p hp
    rw [List.map_nil, flattenWorkers_nil] at hp
    exact absurd hp (List.not_mem_nil p)
  | cons b rest ih =>
    intro p hp
    rw [List.map_cons, flattenWorkers_cons, children_transformBrigadista] at hp
    rcases List.mem_cons.mp hp with h | h
    · rw [h]
      exact ranking_transformBrigadista now b pid
    · rcases List.mem_append.mp h with h' | h'
      · by_cases hc : ((b.movilizadores.getD []).map
            (fun m => transformMovilizadorToHierarchicalWorker now m b.id)).length > 0
        · rw [if_pos hc] at h'
          exact ranking_flattenWorkers_movRows now b.id (b.movilizadores.getD [])
            (lvl + 1) p h'
        · rw [if_neg hc] at h'
          exact absurd h' (List.not_mem_nil p)
      · exact ih p h'

/-- Every flattened node of a list of built lider trees has ranking 0. -/
theorem ranking_flattenWorkers_liderRows (now : Int) (ls : List LiderRow) (lvl : Nat) :
    ∀ p ∈ flattenWorkers (ls.map (transformLiderToHierarchicalWorker now)) lvl,
      p.1.performance.ranking = 0 := by
  induction ls with
  | nil =>
    intro p hp
    rw [List.map_nil, flattenWorkers_nil] at hp
    exact absurd hp (List.not_mem_nil p)
  | cons l rest ih =>
    intro p hp
    rw [List.map_cons, flattenWorkers_cons, children_transformLider] at hp
    rcases List.mem_cons.mp hp with h | h
    · rw [h]
      exact ranking_transformLider now l
    · rcases List.mem_append.mp h with h' | h'
      · by_cases hc : ((l.brigadistas.getD []).map
            (fun b => transformBrigadistaToHierarchicalWorker now b l.id)).length > 0
        · rw [if_pos hc] at h'
          exact ranking_flattenWorkers_brigRows now l.id (l.brigadistas.getD [])
            (lvl + 1) p h'
        · rw [if_neg hc] at h'
          exact absurd h' (List.not_mem_nil p)
      · exact ih p h'

/-- C10: every `HierarchicalWorker` surfaced by the hierarchy service's
operations — the built tree itself, its flattening, a search result, or a
performance-band filter result — has `performance.ranking = 0`: the
builder initializes ranking to 0 and nothing in this service ever
assigns another value (the analytics ranking pass writes only its own
`WorkerAnalytics` records). -/
theorem C10_rankingAlwaysZero (now : Int) (data : List LiderRow)
    (searchTerm : String) (level : PerformanceLevel) :
    (∀ w ∈ transformToHierarchicalWorkers now data, w.performance.ranking = 0) ∧
    (∀ p ∈ flattenHierarchy (transformToHierarchicalWorkers now data),
       p.1.performance.ranking = 0) ∧
    (∀ p ∈ searchWorkers searchTerm (transformToHierarchicalWorkers now data),
       p.1.performance.ranking = 0) ∧
    (∀ p ∈ getWorkersByPerformance level (transformToHierarchicalWorkers now data),
       p.1.performance.ranking = 0) := by
  have hflat : ∀ p ∈ flattenHierarchy (transformToHierarchicalWorkers now data),
      p.1.performance.ranking = 0 := by
    intro p hp
    exact ranking_flattenWorkers_liderRows now data 0 p hp
  refine ⟨?_, hflat, ?_, ?_⟩
  · intro w hw
    obtain ⟨l, _, rfl⟩ := List.mem_map.mp hw
    exact ranking_transformLider now l
  · intro p hp
    exact hflat p (List.mem_filter.mp hp).1
  · intro p hp
    exact hflat p (List.mem_filter.mp hp).1

/-- Witness for C10 at the concrete scenario tree: the built root node
carries ranking 0. -/
theorem C10_witness :
    (transformLiderToHierarchicalWorker 0 scenarioLider).performance.ranking = 0 :=
  (C10_rankingAlwaysZero 0 [scenarioLider] "" PerformanceLevel.poor).1
    (transformLiderToHierarchicalWorker 0 scenarioLider)
    (List.mem_singleton.mpr rfl)

/-- `jsStartsWith` decides the "begins with" relation on char lists. -/
theorem jsStartsWith_iff (needle hay : List Char) :
    jsStartsWith needle hay = true ↔ ∃ r, hay = needle ++ r := by
  induction needle generalizing hay with
  | nil =>
    simp only [jsStartsWith, List.nil_append, true_iff]
    exact ⟨hay, rfl⟩
  | cons a as ih =>
    cases hay with
    | nil =>
      simp [jsStartsWith]
    | cons b bs =>
      simp only [jsStartsWith, Bool.and_eq_true, beq_iff_eq, ih, List.cons_append,
        List.cons.injEq]
      constructor
      · rintro ⟨rfl, r, rfl⟩
        exact ⟨r, rfl, rfl⟩
      · rintro ⟨r, h1, h2⟩
        exact ⟨h1.symm, r, h2⟩

/-- `jsContainsSub` decides the contiguous-substring relation on char
lists. -/
theorem jsContainsSub_iff (needle hay : List Char) :
    jsContainsSub needle hay = true ↔ ∃ l r, hay = l ++ needle ++ r := by
  induction hay with
  | nil =>
    simp only [jsContainsSub, List.isEmpty_iff]
    constructor
    · intro h
      exact ⟨[], [], by simp [h]⟩
    · rintro ⟨l, r, h⟩
      rcases List.append_eq_nil.mp (List.append_eq_nil.mp h.symm).1 with ⟨-, h2⟩
      exact h2
  | cons b bs ih =>
    simp only [jsContainsSub, Bool.or_eq_true, jsStartsWith_iff, ih]
    constructor
    · rintro (⟨r, h⟩ | ⟨l, r, h⟩)
      · exact ⟨[], r, by simpa using h⟩
      · exact ⟨b :: l, r, by simp [h]⟩
    · rintro ⟨l, r, h⟩
      cases l with
      | nil =>
        left
        exact ⟨r, by simpa using h⟩
      | cons x xs =>
        right
        rw [List.cons_append, List.cons_append] at h
        injection h with h1 h2
        exact ⟨xs, r, h2⟩

/-- `jsIncludes` decides `ContainsSub`. -/
theorem jsIncludes_iff (hay needle : String) :
    jsIncludes hay needle = true ↔ ContainsSub hay needle := by
  unfold jsIncludes ContainsSub
  exact jsContainsSub_iff needle.toList hay.toList

/-- An empty needle is contained in every haystack (JS
`s.includes('')`). -/
theorem jsIncludes_empty_needle (hay : String) : jsIncludes hay "" = true := by
  show jsContainsSub "".toList hay.toList = true
  rw [show ("" : String).toList = [] from rfl]
  cases hay.toList with
  | nil => rfl
  | cons b bs => rfl

/-- `optFieldMatches` decides "populated and contains the term". -/
theorem optFieldMatches_iff (f : Option String) (t : String) :
    optFieldMatches f t = true ↔
      ∃ s, f = some s ∧ ContainsSub (jsToLower s) t := by
  cases f with
  | none => simp [optFieldMatches]
  | some s => simp [optFieldMatches, jsIncludes_iff]

/-- The search predicate, unfolded to a proposition: name or one of the
four searched location fields contains the lower-cased term. -/
theorem searchMatches_iff (t : String) (w : HierarchicalWorker) :
    searchMatches t w = true ↔
      (ContainsSub (jsToLower w.nombre) t ∨
       (∃ s, w.ubicacion.entidad = some s ∧ ContainsSub (jsToLower s) t) ∨
       (∃ s, w.ubicacion.municipio = some s ∧ ContainsSub (jsToLower s) t) ∨
       (∃ s, w.ubicacion.colonia = some s ∧ ContainsSub (jsToLower s) t) ∨
       (∃ s, w.ubicacion.seccion = some s ∧ ContainsSub (jsToLower s) t)) := by
  simp only [searchMatches, Bool.or_eq_true, jsIncludes_iff, optFieldMatches_iff,
    or_assoc]

/-- C5 counterexample: searching the term `"123"` over a tree whose only
node has postal code `"12345"` (and no other matching field) returns
nothing, although the node's postal code — a populated location field —
contains the term, so the claimed behaviour would return the node. -/
theorem C5_counterexample :
    searchWorkers "123" [nodePostalOnly] = [] ∧
    specSearchMatches (jsToLower "123") nodePostalOnly = true ∧
    (flattenHierarchy [nodePostalOnly]).filter
      (fun p => specSearchMatches (jsToLower "123") p.1) = [(nodePostalOnly, 0)] := by
  have hflat : flattenHierarchy [nodePostalOnly] = [(nodePostalOnly, 0)] := by
    rw [flattenHierarchy, flattenWorkers_cons, flattenWorkers_nil]
    simp [nodePostalOnly, HierarchicalWorker.children]
  have hpred : searchMatches (jsToLower "123") nodePostalOnly = false := by decide
  have hspec : specSearchMatches (jsToLower "123") nodePostalOnly = true := by decide
  refine ⟨?_, hspec, ?_⟩
  · show (flattenHierarchy [nodePostalOnly]).filter
      (fun p => searchMatches (jsToLower "123") p.1) = []
    rw [hflat]
    simp [List.filter, hpred]
  · rw [hflat]
    simp [List.filter, hspec]

/-- C5 amended: `searchWorkers` returns exactly the flattened nodes
whose name or one of the four searched location fields — region
(`entidad`), sub-region (`municipio`), locality (`colonia`), sector
(`seccion`), but NOT the postal code — contains the search term as a
case-insensitive substring; the empty term matches every node. -/
theorem C5_searchCharacterization (searchTerm : String)
    (data : List HierarchicalWorker) :
    (∀ p : HierarchicalWorker × Nat,
       p ∈ searchWorkers searchTerm data ↔
         p ∈ flattenHierarchy data ∧
           (ContainsSub (jsToLower p.1.nombre) (jsToLower searchTerm) ∨
            (∃ s, p.1.ubicacion.entidad = some s ∧
              ContainsSub (jsToLower s) (jsToLower searchTerm)) ∨
            (∃ s, p.1.ubicacion.municipio = some s ∧
              ContainsSub (jsToLower s) (jsToLower searchTerm)) ∨
            (∃ s, p.1.ubicacion.colonia = some s ∧
              ContainsSub (jsToLower s) (jsToLower searchTerm)) ∨
            (∃ s, p.1.ubicacion.seccion = some s ∧
              ContainsSub (jsToLower s) (jsToLower searchTerm)))) ∧
    searchWorkers "" data = flattenHierarchy data := by
  constructor
  · intro p
    rw [show searchWorkers searchTerm data =
      (flattenHierarchy data).filter
        (fun p => searchMatches (jsToLower searchTerm) p.1) from rfl]
    rw [List.mem_filter, searchMatches_iff]
  · show (flattenHierarchy data).filter (fun p => searchMatches (jsToLower "") p.1) =
      flattenHierarchy data
    apply List.filter_eq_self.mpr
    intro p _
    show searchMatches (jsToLower "") p.1 = true
    rw [show jsToLower "" = "" from rfl]
    unfold searchMatches
    rw [jsIncludes_empty_needle]
    rfl
